import Mathlib

/-!
Verification of the caching DNS forwarding proxy in `DNS/dns_server.py`.

The development shallowly embeds the server's core: the DNS wire format as
handled by the `dnslib` library (modelled for canonical, uncompressed,
single-question messages: `DNSRecord.parse` / `DNSRecord.pack` /
`header.id` / `q.qname` / `q.qtype` / `rr[i].ttl`), the thread-shared cache
dictionary, `forward_query`, `handle_client` and `run_dns_server`.
Bytes are `Nat`s below 256; time instants are `Nat`s (seconds); network,
lock and cache effects are recorded in an explicit event trace so that the
lock-scoping and I/O claims are statable.
-/

/-- Big-endian 2-byte encoding of a 16-bit field. -/
def write16 (n : Nat) : List Nat := [n / 256 % 256, n % 256]

/-- Read a big-endian 16-bit field; fails unless two leading bytes exist. -/
def read16 : List Nat → Option (Nat × List Nat)
  | b1 :: b0 :: rest =>
      if b1 < 256 ∧ b0 < 256 then some (b1 * 256 + b0, rest) else none
  | _ => none

/-- Big-endian 4-byte encoding of a 32-bit field (record TTLs). -/
def write32 (n : Nat) : List Nat :=
  [n / 16777216 % 256, n / 65536 % 256, n / 256 % 256, n % 256]

/-- Read a big-endian 32-bit field. -/
def read32 : List Nat → Option (Nat × List Nat)
  | b3 :: b2 :: b1 :: b0 :: rest =>
      if b3 < 256 ∧ b2 < 256 ∧ b1 < 256 ∧ b0 < 256 then
        some (((b3 * 256 + b2) * 256 + b1) * 256 + b0, rest)
      else none
  | _ => none

theorem read16_sound {l : List Nat} {n : Nat} {r : List Nat}
    (h : read16 l = some (n, r)) : write16 n ++ r = l ∧ n < 65536 := by
  cases l with
  | nil => simp [read16] at h
  | cons b1 t =>
    cases t with
    | nil => simp [read16] at h
    | cons b0 rest =>
      simp only [read16] at h
      split at h
      · rename_i hb
        simp only [Option.some.injEq, Prod.mk.injEq] at h
        obtain ⟨hn, hr⟩ := h
        subst hn; subst hr
        refine ⟨?_, by omega⟩
        simp only [write16, List.cons_append, List.nil_append, List.cons.injEq,
          and_true]
        omega
      · exact absurd h (by simp)

theorem read32_sound {l : List Nat} {n : Nat} {r : List Nat}
    (h : read32 l = some (n, r)) : write32 n ++ r = l := by
  cases l with
  | nil => simp [read32] at h
  | cons b3 t1 =>
  cases t1 with
  | nil => simp [read32] at h
  | cons b2 t2 =>
  cases t2 with
  | nil => simp [read32] at h
  | cons b1 t3 =>
  cases t3 with
  | nil => simp [read32] at h
  | cons b0 rest =>
    simp only [read32] at h
    split at h
    · rename_i hb
      simp only [Option.some.injEq, Prod.mk.injEq] at h
      obtain ⟨hn, hr⟩ := h
      subst hn; subst hr
      simp only [write32, List.cons_append, List.nil_append, List.cons.injEq,
        and_true]
      omega
    · exact absurd h (by simp)

/-- Canonical (uncompressed) encoding of a domain name as length-prefixed
labels followed by a zero terminator, as on the DNS wire. -/
def encodeName : List (List Nat) → List Nat
  | [] => [0]
  | l :: ls => l.length :: l ++ encodeName ls

/-- Fuel-driven reader of a canonically encoded domain name.  The fuel only
bounds recursion depth; one unit per label suffices. -/
def parseName : Nat → List Nat → Option (List (List Nat) × List Nat)
  | 0, _ => none
  | _ + 1, [] => none
  | _ + 1, 0 :: rest => some ([], rest)
  | fuel + 1, (n + 1) :: rest =>
      if n + 1 < 256 ∧ n + 1 ≤ rest.length then
        match parseName fuel (rest.drop (n + 1)) with
        | none => none
        | some (ls, r) => some (rest.take (n + 1) :: ls, r)
      else none

theorem parseName_sound :
    ∀ (fuel : Nat) (l : List Nat) (ls : List (List Nat)) (r : List Nat),
      parseName fuel l = some (ls, r) → encodeName ls ++ r = l := by
  intro fuel
  induction fuel with
  | zero => intro l ls r h; simp [parseName] at h
  | succ f ih =>
    intro l ls r h
    match l with
    | [] => simp [parseName] at h
    | 0 :: rest =>
      simp only [parseName, Option.some.injEq, Prod.mk.injEq] at h
      obtain ⟨h1, h2⟩ := h
      subst h1; subst h2
      simp [encodeName]
    | (n + 1) :: rest =>
      simp only [parseName] at h
      split at h
      · rename_i hcond
        cases hin : parseName f (rest.drop (n + 1)) with
        | none => rw [hin] at h; exact absurd h (by simp)
        | some p =>
          obtain ⟨ls2, r2⟩ := p
          rw [hin] at h
          simp only [Option.some.injEq, Prod.mk.injEq] at h
          obtain ⟨hls, hr⟩ := h
          subst hls; subst hr
          have hrec := ih _ _ _ hin
          have htk : (rest.take (n + 1)).length = n + 1 := by
            simp [List.length_take]; omega
          simp only [encodeName, htk, List.cons_append, List.append_assoc,
            List.cons.injEq, true_and]
          rw [hrec]
          exact List.take_append_drop _ _
      · exact absurd h (by simp)

/-- A resource record of the answer section, as `dnslib` exposes it
(`rr.ttl` is what `handle_client` consumes). -/
structure RRM where
  name : List (List Nat)
  rtype : Nat
  rclass : Nat
  ttl : Nat
  rdata : List Nat
deriving DecidableEq

/-- Canonical wire form of one answer record. -/
def packRR (rec : RRM) : List Nat :=
  encodeName rec.name ++ write16 rec.rtype ++ write16 rec.rclass ++
    write32 rec.ttl ++ write16 rec.rdata.length ++ rec.rdata

/-- Read one answer record. -/
def parseRR (l : List Nat) : Option (RRM × List Nat) := do
  let (nm, r1) ← parseName (l.length + 1) l
  let (t, r2) ← read16 r1
  let (cl, r3) ← read16 r2
  let (tt, r4) ← read32 r3
  let (rdlen, r5) ← read16 r4
  if rdlen ≤ r5.length then
    pure (⟨nm, t, cl, tt, r5.take rdlen⟩, r5.drop rdlen)
  else none

theorem parseRR_sound {l : List Nat} {rec : RRM} {r : List Nat}
    (h : parseRR l = some (rec, r)) : packRR rec ++ r = l := by
  simp only [parseRR, bind, Option.bind_eq_some] at h
  obtain ⟨⟨nm, r1⟩, h1, h⟩ := h
  obtain ⟨⟨t, r2⟩, h2, h⟩ := h
  obtain ⟨⟨cl, r3⟩, h3, h⟩ := h
  obtain ⟨⟨tt, r4⟩, h4, h⟩ := h
  obtain ⟨⟨rdlen, r5⟩, h5, h⟩ := h
  split at h
  · rename_i hle
    dsimp only at hle
    simp only [pure, Option.some.injEq, Prod.mk.injEq] at h
    obtain ⟨hrec, hr⟩ := h
    subst hrec; subst hr
    have e1 := parseName_sound _ _ _ _ h1
    have e2 := (read16_sound h2).1
    have e3 := (read16_sound h3).1
    have e4 := read32_sound h4
    have e5 := (read16_sound h5).1
    have htk : (r5.take rdlen).length = rdlen := by
      simp [List.length_take]; omega
    simp only [packRR, htk, List.append_assoc]
    rw [List.take_append_drop, e5, e4, e3, e2, e1]
  · exact absurd h (by simp)

/-- Read `n` consecutive answer records. -/
def parseRRs : Nat → List Nat → Option (List RRM × List Nat)
  | 0, l => some ([], l)
  | n + 1, l =>
      match parseRR l with
      | none => none
      | some (rec, r) =>
          match parseRRs n r with
          | none => none
          | some (recs, r2) => some (rec :: recs, r2)

theorem parseRRs_sound :
    ∀ (n : Nat) (l : List Nat) (recs : List RRM) (r : List Nat),
      parseRRs n l = some (recs, r) →
        (recs.map packRR).flatten ++ r = l ∧ recs.length = n := by
  intro n
  induction n with
  | zero =>
    intro l recs r h
    simp only [parseRRs, Option.some.injEq, Prod.mk.injEq] at h
    obtain ⟨h1, h2⟩ := h
    subst h1; subst h2
    simp
  | succ k ih =>
    intro l recs r h
    simp only [parseRRs] at h
    cases h1 : parseRR l with
    | none => rw [h1] at h; exact absurd h (by simp)
    | some p =>
      obtain ⟨rec, r1⟩ := p
      rw [h1] at h
      dsimp only at h
      cases h2 : parseRRs k r1 with
      | none => rw [h2] at h; exact absurd h (by simp)
      | some q =>
        obtain ⟨recs2, r2⟩ := q
        rw [h2] at h
        simp only [Option.some.injEq, Prod.mk.injEq] at h
        obtain ⟨ha, hb⟩ := h
        subst ha; subst hb
        have e1 := parseRR_sound h1
        have e2 := ih _ _ _ h2
        refine ⟨?_, by simp [e2.2]⟩
        simp only [List.map_cons, List.flatten_cons, List.append_assoc]
        rw [e2.1, e1]

/-- The parsed form of a DNS message as `dnslib.DNSRecord` exposes it to
`dns_server.py`: the header transaction id (`header.id`), the single
question's name and type (`q.qname`, `q.qtype`), the answer records (`rr`)
and, verbatim, the authority/additional sections (`tail`) together with
their header counts. -/
structure DNSRecordM where
  id : Nat
  flags : Nat
  qname : List (List Nat)
  qtype : Nat
  qclass : Nat
  nscount : Nat
  arcount : Nat
  rr : List RRM
  tail : List Nat
deriving DecidableEq

/-- Wire bytes of a message after its leading 2-byte transaction id.
The id does not occur in it, which is what makes the hit-path id patch a
2-byte-only rewrite. -/
def DNSRecordM.packBody (m : DNSRecordM) : List Nat :=
  write16 m.flags ++ write16 1 ++ write16 m.rr.length ++ write16 m.nscount ++
    write16 m.arcount ++ encodeName m.qname ++ write16 m.qtype ++
    write16 m.qclass ++ (m.rr.map packRR).flatten ++ m.tail

/-- Model of `dnslib.DNSRecord.pack`: canonical wire encoding. -/
def DNSRecordM.pack (m : DNSRecordM) : List Nat := write16 m.id ++ m.packBody

/-- Model of `dnslib.DNSRecord.parse` on canonical single-question
messages; `none` stands for the `DNSError` the library raises on malformed
input. -/
def DNSRecordM.parse (l : List Nat) : Option DNSRecordM := do
  let (i, r1) ← read16 l
  let (fl, r2) ← read16 r1
  let (qd, r3) ← read16 r2
  let (an, r4) ← read16 r3
  let (ns, r5) ← read16 r4
  let (ar, r6) ← read16 r5
  if qd = 1 then
    let (nm, r7) ← parseName (r6.length + 1) r6
    let (qt, r8) ← read16 r7
    let (qc, r9) ← read16 r8
    let (rrs, r10) ← parseRRs an r9
    pure ⟨i, fl, nm, qt, qc, ns, ar, rrs, r10⟩
  else none

theorem parse_sound {l : List Nat} {m : DNSRecordM}
    (h : DNSRecordM.parse l = some m) :
    DNSRecordM.pack m = l ∧ m.id < 65536 := by
  simp only [DNSRecordM.parse, bind, Option.bind_eq_some] at h
  obtain ⟨⟨i, r1⟩, h1, h⟩ := h
  obtain ⟨⟨fl, r2⟩, h2, h⟩ := h
  obtain ⟨⟨qd, r3⟩, h3, h⟩ := h
  obtain ⟨⟨an, r4⟩, h4, h⟩ := h
  obtain ⟨⟨ns, r5⟩, h5, h⟩ := h
  obtain ⟨⟨ar, r6⟩, h6, h⟩ := h
  split at h
  · rename_i hqd
    dsimp only at hqd
    subst hqd
    simp only [Option.bind_eq_some] at h
    obtain ⟨⟨nm, r7⟩, h7, h⟩ := h
    obtain ⟨⟨qt, r8⟩, h8, h⟩ := h
    obtain ⟨⟨qc, r9⟩, h9, h⟩ := h
    obtain ⟨⟨rrs, r10⟩, h10, h⟩ := h
    simp only [pure, Option.some.injEq] at h
    subst h
    have e1 := read16_sound h1
    have e2 := (read16_sound h2).1
    have e3 := (read16_sound h3).1
    have e4 := (read16_sound h4).1
    have e5 := (read16_sound h5).1
    have e6 := (read16_sound h6).1
    have e7 := parseName_sound _ _ _ _ h7
    have e8 := (read16_sound h8).1
    have e9 := (read16_sound h9).1
    have e10 := parseRRs_sound _ _ _ _ h10
    refine ⟨?_, e1.2⟩
    simp only [DNSRecordM.pack, DNSRecordM.packBody, List.append_assoc,
      e10.2]
    rw [e10.1, e9, e8, e7, e6, e5, e4, e3, e2, e1.1]
  · exact absurd h (by simp)

/-- Patching the transaction id (the assignment `cached_resp.header.id =
request.header.id` before `pack`) rewrites exactly the leading two bytes of
the packed message. -/
theorem pack_setId {raw : List Nat} {m : DNSRecordM} (i : Nat)
    (h : DNSRecordM.parse raw = some m) :
    DNSRecordM.pack { m with id := i } = write16 i ++ raw.drop 2 := by
  have hp := (parse_sound h).1
  have hbody : DNSRecordM.packBody { m with id := i } = m.packBody := rfl
  have hdrop : raw.drop 2 = m.packBody := by
    rw [← hp]
    simp [DNSRecordM.pack, write16]
  rw [DNSRecordM.pack, hbody, hdrop]

/-- A parsed transaction id written back with `write16` reads back
unchanged: the id embedded in patched bytes is the patching id. -/
theorem read16_write16 {n : Nat} (r : List Nat) (h : n < 65536) :
    read16 (write16 n ++ r) = some (n, r) := by
  simp only [write16, List.cons_append, List.nil_append, read16]
  have hb1 : n / 256 % 256 < 256 := Nat.mod_lt _ (by omega)
  have hb0 : n % 256 < 256 := Nat.mod_lt _ (by omega)
  rw [if_pos ⟨hb1, hb0⟩]
  simp only [Option.some.injEq, Prod.mk.injEq, and_true]
  omega

/-- Configuration constants of `dns_server.py`. -/
def HOST : String := "0.0.0.0"

/-- Listening port (privileged DNS port). -/
def PORT : Nat := 53

/-- Fixed upstream resolver address. -/
def UPSTREAM_DNS : String := "8.8.8.8"

/-- Fixed upstream resolver port. -/
def UPSTREAM_PORT : Nat := 53

/-- Upstream reply timeout in seconds (`SOCKET_TIMEOUT = 3.0`). -/
def SOCKET_TIMEOUT : Nat := 3

/-- Python exceptions that can surface inside one handler invocation:
`dnslib`'s parse error and abstract socket/OS errors. -/
inductive Exc where
  | parseError
  | netError (code : Nat)
deriving DecidableEq

/-- The messages `dns_server.py` prints, by site; each constructor carries
exactly the dynamic data interpolated into the corresponding f-string. -/
inductive LogMsg where
  | errorLog (addr : Nat) (e : Exc)
  | permissionDenied
  | listening (host : String) (port : Nat)
  | serverError (e : Exc)
deriving DecidableEq

/-- Cache keys: `(str(request.q.qname), request.q.qtype)`. -/
abbrev CacheKey := List (List Nat) × Nat

/-- Cache entries: `(raw_response_bytes, expiry_timestamp)`. -/
abbrev CacheEntry := List Nat × Nat

/-- The backing dictionary of the global `cache`. -/
abbrev CacheMap := List (CacheKey × CacheEntry)

/-- Dictionary membership plus read: `cache[(qname, qtype)]`. -/
def dictGet (c : CacheMap) (k : CacheKey) : Option CacheEntry :=
  match c with
  | [] => none
  | (k2, v) :: rest => if k2 = k then some v else dictGet rest k

/-- Dictionary deletion: `del cache[(qname, qtype)]`. -/
def dictDel (c : CacheMap) (k : CacheKey) : CacheMap :=
  c.filter (fun p => p.1 ≠ k)

/-- Dictionary write: `cache[(qname, qtype)] = entry` (replaces any
previous binding of the key, last-writer-wins). -/
def dictSet (c : CacheMap) (k : CacheKey) (v : CacheEntry) : CacheMap :=
  (k, v) :: dictDel c k

/-- The lookup-with-lazy-eviction step of `handle_client` (step 1): a valid
entry is returned; an expired entry is deleted and `none` returned; an
absent key returns `none`.  The returned map is the cache as the critical
section leaves it. -/
def cache_lookup (c : CacheMap) (k : CacheKey) (now : Nat) :
    Option CacheEntry × CacheMap :=
  match dictGet c k with
  | none => (none, c)
  | some (raw, expiry) =>
      if now < expiry then (some (raw, expiry), c) else (none, dictDel c k)

/-- Observable events of one request, in program order: lock transitions,
cache effects, and network operations. -/
inductive Ev where
  | lockAcquire
  | lockRelease
  | cacheRead (k : CacheKey)
  | cacheDel (k : CacheKey)
  | cacheWrite (k : CacheKey)
  | sendClient (bs : List Nat) (addr : Nat)
  | sockOpen
  | sendUpstream (bs : List Nat) (host : String) (port : Nat)
  | recvUpstream
  | sockClose
  | bindAttempt (host : String) (port : Nat)
deriving DecidableEq

/-- Network transfer events (sends and receives, in either direction). -/
def isNetEv : Ev → Bool
  | .sendClient _ _ => true
  | .sendUpstream _ _ _ => true
  | .recvUpstream => true
  | _ => false

/-- Client-directed send events. -/
def isSendClient : Ev → Bool
  | .sendClient _ _ => true
  | _ => false

/-- Lock-state transition an event causes, if any. -/
def evLock : Ev → Option Bool
  | .lockAcquire => some true
  | .lockRelease => some false
  | _ => none

/-- Lock state after processing a trace, starting from `held`. -/
def heldAfter : Bool → List Ev → Bool
  | held, [] => held
  | held, e :: rest =>
      match evLock e with
      | some b => heldAfter b rest
      | none => heldAfter held rest

/-- The network events of a trace that occur while the lock is held. -/
def lockedNetAux : Bool → List Ev → List Ev
  | _, [] => []
  | held, e :: rest =>
      match evLock e with
      | some b => lockedNetAux b rest
      | none => (if held ∧ isNetEv e then [e] else []) ++ lockedNetAux held rest

/-- Network I/O performed inside lock-held critical sections of a trace. -/
def lockedNetEvents (t : List Ev) : List Ev := lockedNetAux false t

/-- How the upstream exchange behaves for one call of `forward_query`:
a reply datagram arrives, the 3-second wait times out, or the socket
operation fails with an OS error. -/
inductive UpstreamBeh where
  | reply (bs : List Nat)
  | timeout
  | err (e : Exc)
deriving DecidableEq

/-- Environment of one `handle_client` invocation: the two `time.time()`
readings (validity check and store), the upstream behaviour, and whether
`server_socket.sendto` towards the client raises. -/
structure Env where
  time1 : Nat
  time2 : Nat
  upstream : UpstreamBeh
  sendFault : Option Exc
deriving DecidableEq

/-- Model of `forward_query`: fresh UDP socket, one `sendto` of the
unmodified query bytes to the fixed upstream address, at most one
`recvfrom`, `None` on `socket.timeout`, the raised error on any other
failure, and a `sock.close()` (the `finally:`) on every exit path. -/
def forward_query (data : List Nat) (beh : UpstreamBeh) :
    Except Exc (Option (List Nat)) × List Ev :=
  match beh with
  | .reply bs =>
      (.ok (some bs),
       [.sockOpen, .sendUpstream data UPSTREAM_DNS UPSTREAM_PORT,
        .recvUpstream, .sockClose])
  | .timeout =>
      (.ok none,
       [.sockOpen, .sendUpstream data UPSTREAM_DNS UPSTREAM_PORT,
        .sockClose])
  | .err e =>
      (.error e,
       [.sockOpen, .sendUpstream data UPSTREAM_DNS UPSTREAM_PORT,
        .sockClose])

/-- State accumulated by one handler invocation: the cache after it, the
datagrams actually delivered to the client, and the event trace. -/
structure St where
  cache : CacheMap
  sends : List (List Nat × Nat)
  trace : List Ev
deriving DecidableEq

/-- Terminal states of one handler invocation. -/
inductive Outcome where
  | replied
  | dropped
deriving DecidableEq

/-- The TTL `handle_client` computes in step 3: 60 if the response has no
answer records, else Python's `min` over their TTLs. -/
def ttl_of (rrs : List RRM) : Nat :=
  match rrs with
  | [] => 60
  | rec :: rest => List.foldl Nat.min rec.ttl (rest.map RRM.ttl)

/-- Steps 2-4 of `handle_client` after a miss or eviction: forward
upstream, drop on falsy response, parse, store under the lock, reply.
`c` is the cache as the lookup critical section left it; the caller owns
the trace of that critical section. -/
def handle_miss (env : Env) (data : List Nat) (addr : Nat) (key : CacheKey)
    (c : CacheMap) : St × Except Exc Outcome :=
  match forward_query data env.upstream with
  | (.error e, ft) => (⟨c, [], ft⟩, .error e)
  | (.ok ro, ft) =>
      match ro with
      | none => (⟨c, [], ft⟩, .ok .dropped)
      | some bs =>
          if bs.isEmpty then (⟨c, [], ft⟩, .ok .dropped)
          else
            match DNSRecordM.parse bs with
            | none => (⟨c, [], ft⟩, .error .parseError)
            | some resp =>
                let ttl := ttl_of resp.rr
                let c2 := dictSet c key (bs, env.time2 + ttl)
                let tr := ft ++ [.lockAcquire, .cacheWrite key, .lockRelease,
                  .sendClient bs addr]
                match env.sendFault with
                | some e => (⟨c2, [], tr⟩, .error e)
                | none => (⟨c2, [(bs, addr)], tr⟩, .ok .replied)

/-- The `try:` body of `handle_client`.  An `.error` result is an exception
reaching the handler boundary; the paired state is what the invocation had
already done by then (locks are released by `with` on the way out). -/
def handleTry (env : Env) (data : List Nat) (addr : Nat) (c : CacheMap) :
    St × Except Exc Outcome :=
  match DNSRecordM.parse data with
  | none => (⟨c, [], []⟩, .error .parseError)
  | some request =>
      let key : CacheKey := (request.qname, request.qtype)
      match dictGet c key with
      | some (raw, expiry) =>
          if env.time1 < expiry then
            match DNSRecordM.parse raw with
            | none =>
                (⟨c, [], [.lockAcquire, .cacheRead key, .lockRelease]⟩,
                 .error .parseError)
            | some cached =>
                let reply := DNSRecordM.pack { cached with id := request.id }
                match env.sendFault with
                | some e =>
                    (⟨c, [], [.lockAcquire, .cacheRead key,
                      .sendClient reply addr, .lockRelease]⟩, .error e)
                | none =>
                    (⟨c, [(reply, addr)], [.lockAcquire, .cacheRead key,
                      .sendClient reply addr, .lockRelease]⟩, .ok .replied)
          else
            let res := handle_miss env data addr key (dictDel c key)
            (⟨res.1.cache, res.1.sends,
              [.lockAcquire, .cacheRead key, .cacheDel key, .lockRelease] ++
                res.1.trace⟩, res.2)
      | none =>
          let res := handle_miss env data addr key c
          (⟨res.1.cache, res.1.sends,
            [.lockAcquire, .cacheRead key, .lockRelease] ++ res.1.trace⟩,
           res.2)

/-- Full result of one `handle_client` invocation. -/
structure HOut where
  cache : CacheMap
  sends : List (List Nat × Nat)
  trace : List Ev
  logs : List LogMsg
  outcome : Outcome
deriving DecidableEq

/-- Model of `handle_client`: the `try:` body with its boundary
`except Exception` that logs the source address and drops the query. -/
def handle_client (env : Env) (data : List Nat) (addr : Nat)
    (c : CacheMap) : HOut :=
  match handleTry env data addr c with
  | (st, .ok o) => ⟨st.cache, st.sends, st.trace, [], o⟩
  | (st, .error e) =>
      ⟨st.cache, st.sends, st.trace, [.errorLog addr e], .dropped⟩

/-- How the `server_socket.bind((HOST, PORT))` call behaves. -/
inductive BindBeh where
  | ok
  | permissionDenied
deriving DecidableEq

/-- What the startup section of `run_dns_server` ends in. -/
inductive StartResult where
  | entersLoop
  | processExit (code : Nat)
deriving DecidableEq

/-- Startup of `run_dns_server`: one bind of the fixed address and port;
on `PermissionError` it prints the diagnostic and calls `os._exit(1)`,
otherwise it prints the listening banner and enters the receive loop. -/
def run_dns_server_start (b : BindBeh) :
    StartResult × List Ev × List LogMsg :=
  match b with
  | .ok => (.entersLoop, [.bindAttempt HOST PORT], [.listening HOST PORT])
  | .permissionDenied =>
      (.processExit 1, [.bindAttempt HOST PORT], [.permissionDenied])

/-- How one iteration of the receive loop behaves: a datagram arrives and
the handler thread starts, `recvfrom` raises, or `Thread.start` raises. -/
inductive StepBeh where
  | recvOk (data : List Nat) (addr : Nat)
  | recvErr (e : Exc)
  | spawnErr (data : List Nat) (addr : Nat) (e : Exc)
deriving DecidableEq

/-- One iteration of the `while True` receive loop: its `try` either
dispatches a datagram to a fresh handler thread, or its
`except Exception` logs the server error and falls through. -/
def listener_step : StepBeh → Option (List Nat × Nat) × Option LogMsg
  | .recvOk data addr => (some (data, addr), none)
  | .recvErr e => (none, some (.serverError e))
  | .spawnErr _ _ e => (none, some (.serverError e))

/-- The receive loop over a finite schedule of iteration behaviours; the
loop body never breaks, so every scheduled iteration is processed. -/
def listener_loop : List StepBeh → List (Option (List Nat × Nat) × Option LogMsg)
  | [] => []
  | s :: rest => listener_step s :: listener_loop rest

/-- Folding `Nat.min` never exceeds its starting value. -/
theorem foldl_min_le_init :
    ∀ (l : List Nat) (a : Nat), List.foldl Nat.min a l ≤ a := by
  intro l
  induction l with
  | nil => intro a; exact Nat.le_refl a
  | cons b t ih =>
    intro a
    calc List.foldl Nat.min (Nat.min a b) t ≤ Nat.min a b := ih _
      _ ≤ a := Nat.min_le_left _ _

/-- Folding `Nat.min` is below every element of the list. -/
theorem foldl_min_le_mem :
    ∀ (l : List Nat) (a x : Nat), x ∈ l → List.foldl Nat.min a l ≤ x := by
  intro l
  induction l with
  | nil => intro a x hx; exact absurd hx (List.not_mem_nil x)
  | cons b t ih =>
    intro a x hx
    rcases List.mem_cons.mp hx with hb | ht
    · subst hb
      calc List.foldl Nat.min (Nat.min a x) t ≤ Nat.min a x :=
            foldl_min_le_init _ _
        _ ≤ x := Nat.min_le_right _ _
    · exact ih _ _ ht

/-- Folding `Nat.min` yields the start or a member of the list. -/
theorem foldl_min_mem :
    ∀ (l : List Nat) (a : Nat),
      List.foldl Nat.min a l = a ∨ List.foldl Nat.min a l ∈ l := by
  intro l
  induction l with
  | nil => intro a; exact Or.inl rfl
  | cons b t ih =>
    intro a
    rcases ih (Nat.min a b) with he | hm
    · rw [List.foldl_cons, he]
      rcases Nat.le_total a b with hab | hba
      · exact Or.inl (Nat.min_eq_left hab)
      · right
        have hmin : a.min b = b := by unfold Nat.min; exact min_eq_right hba
        rw [hmin]
        exact List.mem_cons_self b t
    · exact Or.inr (List.mem_cons_of_mem b hm)

theorem lockedNetAux_append :
    ∀ (a b : List Ev) (held : Bool),
      lockedNetAux held (a ++ b) =
        lockedNetAux held a ++ lockedNetAux (heldAfter held a) b := by
  intro a
  induction a with
  | nil => intro b held; simp [lockedNetAux, heldAfter]
  | cons e r ih =>
    intro b held
    cases he : evLock e with
    | none =>
      simp only [List.cons_append, lockedNetAux, heldAfter, he, ih,
        List.append_assoc, List.append_eq]
    | some b2 =>
      simp only [List.cons_append, lockedNetAux, heldAfter, he, ih,
        List.append_eq]

theorem handle_miss_no_locked_net (env : Env) (data : List Nat)
    (addr : Nat) (key : CacheKey) (c : CacheMap) :
    lockedNetAux false (handle_miss env data addr key c).1.trace = [] := by
  unfold handle_miss forward_query
  cases env.upstream with
  | reply bs =>
    dsimp only
    by_cases hbs : bs.isEmpty
    · rw [if_pos hbs]
      simp [lockedNetAux, evLock]
    · rw [if_neg hbs]
      cases hr : DNSRecordM.parse bs with
      | none => simp [lockedNetAux, evLock]
      | some resp =>
        cases hsf : env.sendFault with
        | none => simp [lockedNetAux, evLock, isNetEv]
        | some e => simp [lockedNetAux, evLock, isNetEv]
  | timeout => simp [lockedNetAux, evLock]
  | err e => simp [lockedNetAux, evLock]

theorem handleTry_locked_net (env : Env) (data : List Nat) (addr : Nat)
    (c : CacheMap) :
    ((lockedNetAux false (handleTry env data addr c).1.trace).all
      isSendClient) = true := by
  unfold handleTry
  cases hp : DNSRecordM.parse data with
  | none => simp [lockedNetAux]
  | some req =>
    dsimp only
    cases hg : dictGet c (req.qname, req.qtype) with
    | none =>
      dsimp only
      rw [lockedNetAux_append]
      simp [lockedNetAux, evLock, heldAfter, isNetEv,
        handle_miss_no_locked_net]
    | some entry =>
      obtain ⟨raw, expiry⟩ := entry
      dsimp only
      by_cases ht : env.time1 < expiry
      · rw [if_pos ht]
        cases hm : DNSRecordM.parse raw with
        | none => simp [lockedNetAux, evLock, isNetEv]
        | some cached =>
          cases hsf : env.sendFault with
          | none => simp [lockedNetAux, evLock, isNetEv, isSendClient]
          | some e => simp [lockedNetAux, evLock, isNetEv, isSendClient]
      · rw [if_neg ht]
        dsimp only
        rw [lockedNetAux_append]
        simp [lockedNetAux, evLock, heldAfter, isNetEv,
          handle_miss_no_locked_net]

/-- Sample query name used in concrete witnesses: "ex.co". -/
def qnameW : List (List Nat) := [[101, 120], [99, 111]]

/-- A concrete client query message (transaction id 5). -/
def reqMsgW : DNSRecordM := ⟨5, 256, qnameW, 1, 1, 0, 0, [], []⟩

/-- Wire bytes of the sample client query. -/
def dataW : List Nat := DNSRecordM.pack reqMsgW

/-- A concrete answer record with TTL 120. -/
def rrW : RRM := ⟨qnameW, 1, 1, 120, [93, 184, 216, 34]⟩

/-- A concrete upstream response message (transaction id 9). -/
def respMsgW : DNSRecordM := ⟨9, 33152, qnameW, 1, 1, 0, 0, [rrW], []⟩

/-- Wire bytes of the sample upstream response. -/
def rawW : List Nat := DNSRecordM.pack respMsgW

/-- A cache holding the sample response under the sample key, expiring at
instant 100. -/
def cacheW : CacheMap := [((qnameW, 1), (rawW, 100))]

/-- Environment for a cache-hit run: validity check at instant 50. -/
def envHitW : Env := ⟨50, 0, .timeout, none⟩

/-- C1: on a cache hit, the datagram sent to the client is the cached raw
response bytes with exactly the two transaction-id bytes overwritten by the
current query's transaction id — every other byte, including the cached
answer records and their stored TTLs, is byte-identical — the handler ends
Replied, and the transaction-id field read back from the sent bytes equals
the requesting client's own query id. -/
theorem cache_hit_reply_id_patch (env : Env) (data raw : List Nat)
    (addr : Nat) (c : CacheMap) (req m : DNSRecordM) (expiry : Nat)
    (hreq : DNSRecordM.parse data = some req)
    (hc : dictGet c (req.qname, req.qtype) = some (raw, expiry))
    (ht : env.time1 < expiry)
    (hm : DNSRecordM.parse raw = some m)
    (hsf : env.sendFault = none) :
    (handle_client env data addr c).sends =
      [(write16 req.id ++ raw.drop 2, addr)] ∧
    (handle_client env data addr c).outcome = .replied ∧
    read16 (write16 req.id ++ raw.drop 2) = some (req.id, raw.drop 2) := by
  have hid := (parse_sound hreq).2
  have hpatch := pack_setId (m := m) req.id hm
  unfold handle_client handleTry
  rw [hreq]
  dsimp only
  rw [hc]
  dsimp only
  rw [if_pos ht, hm]
  dsimp only
  rw [hsf]
  dsimp only
  refine ⟨?_, rfl, read16_write16 _ hid⟩
  rw [hpatch]

/-- Witness for C1 at the concrete hit run. -/
theorem cache_hit_reply_id_patch_witness :
    (handle_client envHitW dataW 7 cacheW).sends =
      [(write16 reqMsgW.id ++ rawW.drop 2, 7)] ∧
    (handle_client envHitW dataW 7 cacheW).outcome = .replied ∧
    read16 (write16 reqMsgW.id ++ rawW.drop 2) =
      some (reqMsgW.id, rawW.drop 2) :=
  cache_hit_reply_id_patch envHitW dataW rawW 7 cacheW reqMsgW respMsgW 100
    (by decide) (by decide) (by decide) (by decide) rfl

/-- C2 counterexample: an execution of the request handler in which a
network send is performed while the cache lock is held — the cache-hit
reply `sendto` sits inside the `with cache_lock:` block, so the claim that
the lock is never held across network I/O is false on the code. -/
theorem lock_held_during_hit_send :
    (lockedNetEvents (handle_client envHitW dataW 7 cacheW).trace).isEmpty =
      false := by decide

/-- C2 amended: in every execution of the request handler, the only
network operation ever performed while the cache lock is held is the
cache-hit reply send to the client; the upstream forward's send and
receive, and the reply send of the miss path, always run with the lock
released, and the store critical section performs no network I/O. -/
theorem locked_net_only_hit_send (env : Env) (data : List Nat) (addr : Nat)
    (c : CacheMap) :
    ((lockedNetEvents (handle_client env data addr c).trace).all
      isSendClient) = true := by
  have hT := handleTry_locked_net env data addr c
  unfold handle_client
  cases hres : handleTry env data addr c with
  | mk st r =>
    rw [hres] at hT
    cases r with
    | ok o => exact hT
    | error e => exact hT

theorem handle_client_cache (env : Env) (data : List Nat) (addr : Nat)
    (c : CacheMap) :
    (handle_client env data addr c).cache = (handleTry env data addr c).1.cache := by
  unfold handle_client
  cases h : handleTry env data addr c with
  | mk st r => cases r <;> rfl

theorem handle_client_sends (env : Env) (data : List Nat) (addr : Nat)
    (c : CacheMap) :
    (handle_client env data addr c).sends = (handleTry env data addr c).1.sends := by
  unfold handle_client
  cases h : handleTry env data addr c with
  | mk st r => cases r <;> rfl

theorem handle_client_trace (env : Env) (data : List Nat) (addr : Nat)
    (c : CacheMap) :
    (handle_client env data addr c).trace = (handleTry env data addr c).1.trace := by
  unfold handle_client
  cases h : handleTry env data addr c with
  | mk st r => cases r <;> rfl

theorem handle_client_outcome (env : Env) (data : List Nat) (addr : Nat)
    (c : CacheMap) :
    (handle_client env data addr c).outcome =
      (match (handleTry env data addr c).2 with
        | .ok o => o
        | .error _ => Outcome.dropped) := by
  unfold handle_client
  cases h : handleTry env data addr c with
  | mk st r => cases r <;> rfl

theorem handle_client_logs (env : Env) (data : List Nat) (addr : Nat)
    (c : CacheMap) :
    (handle_client env data addr c).logs =
      (match (handleTry env data addr c).2 with
        | .ok _ => []
        | .error e => [LogMsg.errorLog addr e]) := by
  unfold handle_client
  cases h : handleTry env data addr c with
  | mk st r => cases r <;> rfl

theorem handleTry_miss_parts (env : Env) (data : List Nat) (addr : Nat)
    (c : CacheMap) (req : DNSRecordM)
    (hreq : DNSRecordM.parse data = some req)
    (hmiss : (cache_lookup c (req.qname, req.qtype) env.time1).1 = none) :
    (handleTry env data addr c).1.cache =
      (handle_miss env data addr (req.qname, req.qtype)
        (cache_lookup c (req.qname, req.qtype) env.time1).2).1.cache ∧
    (handleTry env data addr c).1.sends =
      (handle_miss env data addr (req.qname, req.qtype)
        (cache_lookup c (req.qname, req.qtype) env.time1).2).1.sends ∧
    (handleTry env data addr c).2 =
      (handle_miss env data addr (req.qname, req.qtype)
        (cache_lookup c (req.qname, req.qtype) env.time1).2).2 := by
  unfold handleTry
  rw [hreq]
  dsimp only
  cases hg : dictGet c (req.qname, req.qtype) with
  | none =>
    simp [cache_lookup, hg]
  | some entry =>
    obtain ⟨raw, expiry⟩ := entry
    dsimp only
    by_cases ht : env.time1 < expiry
    · exfalso
      simp [cache_lookup, hg, ht] at hmiss
    · rw [if_neg ht]
      simp [cache_lookup, hg, ht]

theorem ttl_of_le (rrs : List RRM) :
    ∀ rec ∈ rrs, ttl_of rrs ≤ rec.ttl := by
  intro rec hrec
  cases rrs with
  | nil => exact absurd hrec (List.not_mem_nil rec)
  | cons r0 rest =>
    simp only [ttl_of]
    rcases List.mem_cons.mp hrec with h0 | hr
    · subst h0
      exact foldl_min_le_init _ _
    · exact foldl_min_le_mem _ _ _ (List.mem_map_of_mem RRM.ttl hr)

theorem ttl_of_mem (rrs : List RRM) (h : rrs ≠ []) :
    ttl_of rrs ∈ rrs.map RRM.ttl := by
  cases rrs with
  | nil => exact absurd rfl h
  | cons r0 rest =>
    simp only [ttl_of, List.map_cons]
    rcases foldl_min_mem (rest.map RRM.ttl) r0.ttl with he | hm
    · rw [he]; exact List.mem_cons_self _ _
    · exact List.mem_cons_of_mem _ hm

/-- C3: on a successfully parsed upstream response, the entry stored for
the query's key holds the raw response bytes and expires at the
store-time reading of `time.time()` plus the computed TTL; that TTL is a
lower bound of every answer record's TTL and is attained by one of them
when any answer exists, and it is exactly 60 when the response carries no
answer records. -/
theorem stored_ttl_min_or_sixty (env : Env) (data bs : List Nat)
    (addr : Nat) (c : CacheMap) (req resp : DNSRecordM)
    (hreq : DNSRecordM.parse data = some req)
    (hmiss : (cache_lookup c (req.qname, req.qtype) env.time1).1 = none)
    (hup : env.upstream = .reply bs)
    (hne : bs.isEmpty = false)
    (hresp : DNSRecordM.parse bs = some resp) :
    dictGet (handle_client env data addr c).cache (req.qname, req.qtype) =
      some (bs, env.time2 + ttl_of resp.rr) ∧
    (∀ rec ∈ resp.rr, ttl_of resp.rr ≤ rec.ttl) ∧
    (resp.rr ≠ [] → ttl_of resp.rr ∈ resp.rr.map RRM.ttl) ∧
    ttl_of ([] : List RRM) = 60 := by
  refine ⟨?_, ttl_of_le resp.rr, ttl_of_mem resp.rr, rfl⟩
  have hparts := handleTry_miss_parts env data addr c req hreq hmiss
  rw [handle_client_cache, hparts.1]
  unfold handle_miss forward_query
  rw [hup]
  dsimp only
  rw [hne]
  simp only [Bool.false_eq_true, if_false]
  rw [hresp]
  dsimp only
  cases env.sendFault <;> simp [dictSet, dictGet]

/-- Environment for a concrete miss run that stores the sample response:
lookup at instant 50, store at instant 70. -/
def envMissW : Env := ⟨50, 70, .reply rawW, none⟩

/-- Witness for C3 at the concrete miss run (one answer, TTL 120). -/
theorem stored_ttl_min_or_sixty_witness :
    dictGet (handle_client envMissW dataW 7 []).cache
        (reqMsgW.qname, reqMsgW.qtype) =
      some (rawW, envMissW.time2 + ttl_of respMsgW.rr) ∧
    (∀ rec ∈ respMsgW.rr, ttl_of respMsgW.rr ≤ rec.ttl) ∧
    (respMsgW.rr ≠ [] → ttl_of respMsgW.rr ∈ respMsgW.rr.map RRM.ttl) ∧
    ttl_of ([] : List RRM) = 60 :=
  stored_ttl_min_or_sixty envMissW dataW rawW 7 [] reqMsgW respMsgW
    (by decide) (by decide) rfl (by decide) (by decide)

/-- The upstream exchange failed: `forward_query` timed out or raised, or
the returned datagram is falsy or fails to parse. -/
def upstream_failed : UpstreamBeh → Bool
  | .timeout => true
  | .err _ => true
  | .reply bs => bs.isEmpty || (DNSRecordM.parse bs).isNone

theorem handle_miss_failed (env : Env) (data : List Nat) (addr : Nat)
    (key : CacheKey) (c : CacheMap)
    (hfail : upstream_failed env.upstream = true) :
    (handle_miss env data addr key c).1.cache = c ∧
    (handle_miss env data addr key c).1.sends = [] := by
  unfold handle_miss forward_query
  cases hup : env.upstream with
  | timeout => exact ⟨rfl, rfl⟩
  | err e => exact ⟨rfl, rfl⟩
  | reply bs =>
    rw [hup] at hfail
    dsimp only
    by_cases hbs : bs.isEmpty
    · rw [if_pos hbs]
      exact ⟨rfl, rfl⟩
    · rw [if_neg hbs]
      cases hr : DNSRecordM.parse bs with
      | none => exact ⟨rfl, rfl⟩
      | some resp =>
        exfalso
        simp [upstream_failed, hr, hbs] at hfail

/-- C4: whenever the upstream exchange fails (timeout, socket error, falsy
reply, or a reply that fails to parse), no cache store happens: the
handler's final cache is exactly the cache as the lookup/eviction critical
section left it. -/
theorem no_store_on_failed_upstream (env : Env) (data : List Nat)
    (addr : Nat) (c : CacheMap) (req : DNSRecordM)
    (hreq : DNSRecordM.parse data = some req)
    (hfail : upstream_failed env.upstream = true) :
    (handle_client env data addr c).cache =
      (cache_lookup c (req.qname, req.qtype) env.time1).2 := by
  rw [handle_client_cache]
  unfold handleTry
  rw [hreq]
  dsimp only
  cases hg : dictGet c (req.qname, req.qtype) with
  | none =>
    dsimp only
    rw [(handle_miss_failed env data addr _ c hfail).1]
    simp [cache_lookup, hg]
  | some entry =>
    obtain ⟨raw, expiry⟩ := entry
    dsimp only
    by_cases ht : env.time1 < expiry
    · rw [if_pos ht]
      cases hm : DNSRecordM.parse raw with
      | none => simp [cache_lookup, hg, ht]
      | some cached =>
        cases hsf : env.sendFault <;> simp [cache_lookup, hg, ht]
    · rw [if_neg ht]
      dsimp only
      rw [(handle_miss_failed env data addr _ _ hfail).1]
      simp [cache_lookup, hg, ht]

/-- Environment whose lookup happens after the sample entry expired and
whose upstream forward times out. -/
def envExpTimeoutW : Env := ⟨200, 0, .timeout, none⟩

/-- Witness for C4: expired entry evicted, upstream times out, final cache
is the evicted (empty) one. -/
theorem no_store_on_failed_upstream_witness :
    (handle_client envExpTimeoutW dataW 7 cacheW).cache =
      (cache_lookup cacheW (reqMsgW.qname, reqMsgW.qtype)
        envExpTimeoutW.time1).2 :=
  no_store_on_failed_upstream envExpTimeoutW dataW 7 cacheW reqMsgW
    (by decide) rfl

/-- C5: a cache lookup treats an entry as valid exactly when the current
time is strictly below its stored expiry instant; a present-but-expired
entry is deleted and the lookup yields absent, and in the handler the
deletion happens between the lock acquisition and its release of the same
critical section that reports the miss. -/
theorem lookup_strict_expiry_evicts (c : CacheMap) (k : CacheKey)
    (now : Nat) :
    ((cache_lookup c k now).1.isSome =
      (dictGet c k).any (fun entry => decide (now < entry.2))) ∧
    (∀ raw expiry, dictGet c k = some (raw, expiry) → ¬ now < expiry →
      cache_lookup c k now = (none, dictDel c k)) ∧
    (∀ (env : Env) (data : List Nat) (addr : Nat) (raw : List Nat)
        (expiry : Nat) (req : DNSRecordM),
      DNSRecordM.parse data = some req →
      dictGet c (req.qname, req.qtype) = some (raw, expiry) →
      ¬ env.time1 < expiry →
      (handle_client env data addr c).trace.take 4 =
        [Ev.lockAcquire, Ev.cacheRead (req.qname, req.qtype),
         Ev.cacheDel (req.qname, req.qtype), Ev.lockRelease]) := by
  refine ⟨?_, ?_, ?_⟩
  · unfold cache_lookup
    cases hg : dictGet c k with
    | none => rfl
    | some entry =>
      obtain ⟨raw, expiry⟩ := entry
      by_cases ht : now < expiry
      · simp [ht]
      · simp [ht]
  · intro raw expiry hg ht
    unfold cache_lookup
    rw [hg]
    dsimp only
    rw [if_neg ht]
  · intro env data addr raw expiry req hreq hg ht
    rw [handle_client_trace]
    unfold handleTry
    rw [hreq]
    dsimp only
    rw [hg]
    dsimp only
    rw [if_neg ht]
    dsimp only
    rfl

/-- Witness for C5 at the expired sample entry (expiry 100, read at 200):
eviction plus the in-critical-section trace prefix. -/
theorem lookup_strict_expiry_evicts_witness :
    cache_lookup cacheW (qnameW, 1) 200 =
      (none, dictDel cacheW (qnameW, 1)) ∧
    (handle_client envExpTimeoutW dataW 7 cacheW).trace.take 4 =
      [Ev.lockAcquire, Ev.cacheRead (reqMsgW.qname, reqMsgW.qtype),
       Ev.cacheDel (reqMsgW.qname, reqMsgW.qtype), Ev.lockRelease] :=
  ⟨(lookup_strict_expiry_evicts cacheW (qnameW, 1) 200).2.1 rawW 100
      (by decide) (by decide),
   (lookup_strict_expiry_evicts cacheW (qnameW, 1) 200).2.2
      envExpTimeoutW dataW 7 rawW 100 reqMsgW (by decide) (by decide)
      (by decide)⟩

/-- Socket-creation events. -/
def isSockOpen : Ev → Bool
  | .sockOpen => true
  | _ => false

/-- Upstream send events. -/
def isSendUp : Ev → Bool
  | .sendUpstream _ _ _ => true
  | _ => false

/-- Upstream receive events. -/
def isRecvUp : Ev → Bool
  | .recvUpstream => true
  | _ => false

/-- Socket-close events. -/
def isSockClose : Ev → Bool
  | .sockClose => true
  | _ => false

/-- C6: every call of `forward_query` opens exactly one fresh socket as its
first action, performs exactly one upstream send whose payload is the
unmodified query bytes addressed to the fixed upstream resolver, waits for
at most one reply datagram, closes the socket as its last action on every
exit path, and returns the raw reply on success, the timeout signal
(`None`) on timeout, and propagates the error otherwise. -/
theorem forward_query_contract (data : List Nat) (beh : UpstreamBeh) :
    (forward_query data beh).2.head? = some Ev.sockOpen ∧
    (forward_query data beh).2.countP isSockOpen = 1 ∧
    (forward_query data beh).2.countP isSendUp = 1 ∧
    Ev.sendUpstream data UPSTREAM_DNS UPSTREAM_PORT ∈
      (forward_query data beh).2 ∧
    (forward_query data beh).2.countP isRecvUp ≤ 1 ∧
    (forward_query data beh).2.getLast? = some Ev.sockClose ∧
    (forward_query data beh).2.countP isSockClose = 1 ∧
    (forward_query data beh).1 =
      (match beh with
        | .reply bs => .ok (some bs)
        | .timeout => .ok none
        | .err e => .error e) := by
  cases beh <;>
    simp [forward_query, isSockOpen, isSendUp, isRecvUp, isSockClose,
      List.countP_cons, List.countP_nil]

/-- Environment with no particular behaviour, used for failure runs. -/
def envPlainW : Env := ⟨0, 0, .timeout, none⟩

/-- C7: an exception anywhere in the `try:` body of `handle_client` is
caught at the handler boundary: the handler's result keeps the state the
body had reached, appends exactly one log entry carrying the query's
source address and the exception, and terminates as Dropped — it never
escapes the handler. -/
theorem handler_boundary_catches (env : Env) (data : List Nat)
    (addr : Nat) (c : CacheMap) (st : St) (e : Exc)
    (h : handleTry env data addr c = (st, .error e)) :
    handle_client env data addr c =
      ⟨st.cache, st.sends, st.trace, [LogMsg.errorLog addr e],
        Outcome.dropped⟩ := by
  unfold handle_client
  rw [h]

/-- Witness for C7: an unparseable (empty) datagram raises in step 1 and
the handler drops it, logging the source address. -/
theorem handler_boundary_catches_witness :
    handle_client envPlainW [] 7 [] =
      ⟨[], [], [], [LogMsg.errorLog 7 Exc.parseError], Outcome.dropped⟩ :=
  handler_boundary_catches envPlainW [] 7 [] ⟨[], [], []⟩ Exc.parseError rfl

/-- C8: a bind refused for insufficient privilege is fatal — the startup
prints the permission diagnostic and exits the process with status 1
immediately — and in every run exactly one bind is attempted, always at
the fixed host and port (no retry, no fallback port). -/
theorem bind_permission_fatal :
    run_dns_server_start BindBeh.permissionDenied =
      (StartResult.processExit 1, [Ev.bindAttempt HOST PORT],
        [LogMsg.permissionDenied]) ∧
    (∀ b : BindBeh, (run_dns_server_start b).2.1 =
      [Ev.bindAttempt HOST PORT]) := by
  refine ⟨rfl, ?_⟩
  intro b
  cases b <;> rfl

theorem handle_miss_dropped (env : Env) (data : List Nat) (addr : Nat)
    (key : CacheKey) (c : CacheMap)
    (h : env.upstream = .reply [] ∨ env.upstream = .timeout) :
    (handle_miss env data addr key c).1.cache = c ∧
    (handle_miss env data addr key c).1.sends = [] ∧
    (handle_miss env data addr key c).2 = .ok .dropped := by
  rcases h with h | h <;> simp [handle_miss, forward_query, h]

/-- C9: when the forwarder hands back an empty byte string, the falsy
check treats it exactly like a timeout: the query is dropped with no reply
sent and no cache store, and the handler's outcome, sends, cache and logs
coincide with those of the same invocation whose forward timed out. -/
theorem empty_reply_dropped_like_timeout (env : Env) (data : List Nat)
    (addr : Nat) (c : CacheMap) (req : DNSRecordM)
    (hreq : DNSRecordM.parse data = some req)
    (hmiss : (cache_lookup c (req.qname, req.qtype) env.time1).1 = none)
    (hup : env.upstream = .reply []) :
    (handle_client env data addr c).outcome = .dropped ∧
    (handle_client env data addr c).sends = [] ∧
    (handle_client env data addr c).cache =
      (cache_lookup c (req.qname, req.qtype) env.time1).2 ∧
    (handle_client env data addr c).outcome =
      (handle_client { env with upstream := .timeout } data addr c).outcome ∧
    (handle_client env data addr c).sends =
      (handle_client { env with upstream := .timeout } data addr c).sends ∧
    (handle_client env data addr c).cache =
      (handle_client { env with upstream := .timeout } data addr c).cache ∧
    (handle_client env data addr c).logs =
      (handle_client { env with upstream := .timeout } data addr c).logs := by
  have hA := handleTry_miss_parts env data addr c req hreq hmiss
  have hB := handleTry_miss_parts { env with upstream := UpstreamBeh.timeout }
    data addr c req hreq hmiss
  have hd1 := handle_miss_dropped env data addr (req.qname, req.qtype)
    ((cache_lookup c (req.qname, req.qtype) env.time1).2) (Or.inl hup)
  have hd2 := handle_miss_dropped { env with upstream := UpstreamBeh.timeout }
    data addr (req.qname, req.qtype)
    ((cache_lookup c (req.qname, req.qtype)
      ({ env with upstream := UpstreamBeh.timeout } : Env).time1).2)
    (Or.inr rfl)
  simp only [handle_client_outcome, handle_client_sends,
    handle_client_cache, handle_client_logs]
  simp only [hA.1, hA.2.1, hA.2.2, hB.1, hB.2.1, hB.2.2]
  simp only [hd1.1, hd1.2.1, hd1.2.2, hd2.1, hd2.2.1, hd2.2.2]
  simp

/-- Environment whose forward returns an empty datagram. -/
def envEmptyW : Env := ⟨50, 70, .reply [], none⟩

/-- Witness for C9 at a concrete empty-reply run over an empty cache. -/
theorem empty_reply_dropped_like_timeout_witness :
    (handle_client envEmptyW dataW 7 []).outcome = .dropped ∧
    (handle_client envEmptyW dataW 7 []).sends = [] ∧
    (handle_client envEmptyW dataW 7 []).cache =
      (cache_lookup [] (reqMsgW.qname, reqMsgW.qtype) envEmptyW.time1).2 ∧
    (handle_client envEmptyW dataW 7 []).outcome =
      (handle_client { envEmptyW with upstream := .timeout } dataW 7 []).outcome ∧
    (handle_client envEmptyW dataW 7 []).sends =
      (handle_client { envEmptyW with upstream := .timeout } dataW 7 []).sends ∧
    (handle_client envEmptyW dataW 7 []).cache =
      (handle_client { envEmptyW with upstream := .timeout } dataW 7 []).cache ∧
    (handle_client envEmptyW dataW 7 []).logs =
      (handle_client { envEmptyW with upstream := .timeout } dataW 7 []).logs :=
  empty_reply_dropped_like_timeout envEmptyW dataW 7 [] reqMsgW
    (by decide) (by decide) rfl

/-- C10: an exception in one iteration of the receive loop (in `recvfrom`
or in spawning the handler thread) is caught and logged as a server error,
no handler is dispatched for it, and the loop goes on: every scheduled
iteration is processed and the loop distributes over schedules, so no
iteration's failure terminates it. -/
theorem listener_loop_survives_errors :
    (∀ steps : List StepBeh, (listener_loop steps).length = steps.length) ∧
    (∀ steps steps2 : List StepBeh,
      listener_loop (steps ++ steps2) =
        listener_loop steps ++ listener_loop steps2) ∧
    (∀ e : Exc, listener_step (.recvErr e) =
      (none, some (.serverError e))) ∧
    (∀ (data : List Nat) (addr : Nat) (e : Exc),
      listener_step (.spawnErr data addr e) =
        (none, some (.serverError e))) := by
  refine ⟨?_, ?_, fun e => rfl, fun data addr e => rfl⟩
  · intro steps
    induction steps with
    | nil => rfl
    | cons s rest ih => simp [listener_loop, ih]
  · intro steps steps2
    induction steps with
    | nil => rfl
    | cons s rest ih => simp [listener_loop, ih]
